import Mathlib

/-!
# Verification of the Taskio task-management backend

A shallow embedding of the core logic of the `Lista-de-Tareas` repository:
the login throttle and authentication state machine
(`api/config/database.js`), the task controller (create / list / update /
delete / stats, `taskController.js`) and the password policy.  External
collaborators (bcrypt, jsonwebtoken, the MongoDB store, the JavaScript
`Date` runtime and the regex engine) are modelled on exactly the fragment
this code exercises; the handlers themselves are translated line by line.
-/

namespace Taskio

/-! ## JavaScript value model -/

/-- JS truthiness test `!x` on a string-valued request field:
`undefined` (modelled as `none`) and the empty string are falsy. -/
def jsFalsy : Option String → Bool
  | none => true
  | some s => s == ""

/-- JS truthiness test `!x` on a numeric request field:
`undefined` and `0` are falsy. -/
def jsFalsyInt : Option Int → Bool
  | none => true
  | some n => n == 0

/-- String interpolation of a possibly-undefined value, as in the template
literal `` `${date}T${time}` ``: `undefined` prints as `"undefined"`. -/
def jsInterp : Option String → String
  | none => "undefined"
  | some s => s

/-! ## The JavaScript `Date` runtime (external collaborator)

Model of `new Date(string)` on the fragment the repository feeds it:
ISO `YYYY-MM-DD` and `YYYY-MM-DDTHH:mm` strings.  A parsed instant is a
`some` epoch-millisecond value; an unparseable string is the Invalid Date,
modelled as `none`.  Comparison of an Invalid Date with `<` is `false`
in JS (`NaN` comparisons), which `jsLtNow` reproduces. -/

/-- Numeric value of an ASCII digit, `none` otherwise. -/
def digitVal (c : Char) : Option Nat :=
  if 48 ≤ c.toNat && c.toNat ≤ 57 then some (c.toNat - 48) else none

/-- Two-digit decimal field. -/
def digits2 (a b : Char) : Option Nat :=
  match digitVal a, digitVal b with
  | some x, some y => some (10 * x + y)
  | _, _ => none

/-- Four-digit decimal field. -/
def digits4 (a b c d : Char) : Option Nat :=
  match digitVal a, digitVal b, digitVal c, digitVal d with
  | some x, some y, some z, some w => some (1000 * x + 100 * y + 10 * z + w)
  | _, _, _, _ => none

/-- Gregorian leap year. -/
def isLeap (y : Nat) : Bool :=
  y % 4 == 0 && (y % 100 != 0 || y % 400 == 0)

/-- Days in a month of the Gregorian calendar. -/
def daysInMonth (y m : Nat) : Nat :=
  if m == 2 then (if isLeap y then 29 else 28)
  else if m == 4 || m == 6 || m == 9 || m == 11 then 30
  else 31

/-- Days from the Unix epoch to the civil date `y-m-d`
(the standard era-based conversion). -/
def daysFromCivil (y m d : Nat) : Int :=
  let yAdj : Int := if m ≤ 2 then (y : Int) - 1 else (y : Int)
  let era : Int := (if 0 ≤ yAdj then yAdj else yAdj - 399) / 400
  let yoe : Int := yAdj - era * 400
  let mp : Int := if 2 < m then (m : Int) - 3 else (m : Int) + 9
  let doy : Int := (153 * mp + 2) / 5 + (d : Int) - 1
  let doe : Int := yoe * 365 + yoe / 4 - yoe / 100 + doy
  era * 146097 + doe - 719468

/-- Epoch milliseconds of `y-m-d hh:mm` (UTC). -/
def jsEpochMs (y m d hh mm : Nat) : Int :=
  (daysFromCivil y m d * 86400 + ((hh * 3600 + mm * 60 : Nat) : Int)) * 1000

/-- Range validity of the date/time components, as for ISO parsing. -/
def dateTimeValid (y m d hh mm : Nat) : Bool :=
  1 ≤ m && m ≤ 12 && 1 ≤ d && d ≤ daysInMonth y m && hh ≤ 23 && mm ≤ 59

/-- `new Date(s)` on the ISO forms the repository constructs; everything
else (including `"undefinedTundefined"` from interpolating missing fields)
is the Invalid Date, `none`. -/
def jsDateParse (s : String) : Option Int :=
  match s.toList with
  | [y1, y2, y3, y4, '-', m1, m2, '-', d1, d2] =>
    match digits4 y1 y2 y3 y4, digits2 m1 m2, digits2 d1 d2 with
    | some y, some m, some d =>
      if dateTimeValid y m d 0 0 then some (jsEpochMs y m d 0 0) else none
    | _, _, _ => none
  | [y1, y2, y3, y4, '-', m1, m2, '-', d1, d2, 'T', h1, h2, ':', n1, n2] =>
    match digits4 y1 y2 y3 y4, digits2 m1 m2, digits2 d1 d2,
          digits2 h1 h2, digits2 n1 n2 with
    | some y, some m, some d, some hh, some mm =>
      if dateTimeValid y m d hh mm then some (jsEpochMs y m d hh mm) else none
    | _, _, _, _, _ => none
  | _ => none

/-- JS `d < now` on a possibly-invalid `Date`: comparisons against the
Invalid Date (`NaN` timestamp) are `false`. -/
def jsLtNow : Option Int → Int → Bool
  | none, _ => false
  | some t, now => decide (t < now)

/-! ## Data model

`User` follows `models/userModel.js` (the stored `password` is the bcrypt
hash produced at signup/reset); `Task` follows `models/taskModel.js`, with
`dueDate : Option Int` holding the possibly-invalid `Date` computed from
`date` and `time`, and `status : Option String` (absent on legacy
documents, which is what the stats `$ifNull` branch is for). -/

structure User where
  id : String
  firstName : String
  lastName : String
  age : Int
  email : String
  password : String
  resetPasswordToken : Option String
  resetPasswordExpires : Option Int
deriving DecidableEq, Repr

structure Task where
  id : String
  userId : String
  title : String
  detail : Option String
  date : String
  time : String
  dueDate : Option Int
  status : Option String
deriving DecidableEq, Repr

/-- `User.findOne({ email })`. -/
def findUserByEmail (users : List User) (e : String) : Option User :=
  users.find? (fun u => u.email == e)

/-- Replace the first list element satisfying `p` (what a Mongo
`findOneAndUpdate` does to the collection). -/
def updateFirst {α : Type} (p : α → Bool) (f : α → α) : List α → List α
  | [] => []
  | x :: xs => if p x then f x :: xs else x :: updateFirst p f xs

/-- Remove the first list element satisfying `p` (a `findOneAndDelete`). -/
def removeFirst {α : Type} (p : α → Bool) : List α → List α
  | [] => []
  | x :: xs => if p x then xs else x :: removeFirst p xs

/-! ## Login throttle state (`let loginAttempts = {}` in userController) -/

/-- One `loginAttempts[email]` record: `{ count, lockedUntil }`. -/
structure AttemptEntry where
  count : Nat
  lockedUntil : Option Int
deriving DecidableEq, Repr

/-- The process-wide `loginAttempts` object, as an association list. -/
abbrev ThrottleState := List (String × AttemptEntry)

/-- Read `loginAttempts[email]`. -/
def getAttempt (st : ThrottleState) (e : String) : Option AttemptEntry :=
  (List.find? (fun p => p.1 == e) st).map Prod.snd

/-- Write `loginAttempts[email] = a` (update in place, insert if absent). -/
def setAttempt (e : String) (a : AttemptEntry) : ThrottleState → ThrottleState
  | [] => [(e, a)]
  | (k, v) :: rest => if k == e then (e, a) :: rest else (k, v) :: setAttempt e a rest

/-- JS truthiness-guarded lock test
`loginAttempts[email].lockedUntil && loginAttempts[email].lockedUntil > Date.now()`:
a `null` (or numerically falsy `0`) `lockedUntil` never locks. -/
def lockedActive (lu : Option Int) (now : Int) : Bool :=
  match lu with
  | none => false
  | some l => l != 0 && decide (now < l)

/-! ## Token issuer/verifier (external `jsonwebtoken` library)

Modelled from the spec: the Token Issuer/Verifier is an external
collaborator ("signs and verifies compact session tokens with expiry").
The HMAC is abstracted as a caller-supplied keyed function
`secret : JwtPayload → Int → Nat`; a token verifies iff its signature
field equals the secret's value on its payload and expiry, and the current
time is before the expiry. -/

structure JwtPayload where
  userId : String
  email : String
deriving DecidableEq, Repr

structure Jwt where
  payload : JwtPayload
  exp : Int
  sig : Nat
deriving DecidableEq, Repr

/-- `jwt.sign(payload, secret, { expiresIn })`. -/
def jwtSign (secret : JwtPayload → Int → Nat) (p : JwtPayload)
    (now lifeMs : Int) : Jwt :=
  { payload := p, exp := now + lifeMs, sig := secret p (now + lifeMs) }

/-- `jwt.verify(token, secret)`: `some payload` on success, `none` when the
signature does not check out or the token is expired. -/
def jwtVerify (secret : JwtPayload → Int → Nat) (now : Int) (t : Jwt) :
    Option JwtPayload :=
  if t.sig == secret t.payload t.exp && decide (now < t.exp) then some t.payload
  else none

/-- Token lifetime: `expiresIn: "2h"` / cookie `maxAge: 2*60*60*1000`. -/
def twoHoursMs : Int := 2 * 60 * 60 * 1000

/-- Lockout window: `Date.now() + 15 * 60 * 1000`. -/
def lockMs : Int := 15 * 60 * 1000

/-! ## `login` (userController.js) -/

inductive LoginResult where
  /-- 400 "Email y contraseña son requeridos" -/
  | badRequest
  /-- 401 "Credenciales inválidas" (unknown email or wrong password) -/
  | invalidCredentials
  /-- 423 "Demasiados intentos fallidos..." -/
  | locked
  /-- 200 "Login exitoso" with the cookie token -/
  | success (userId : String) (token : Jwt)
deriving DecidableEq, Repr

/-- Outcome of one `login` request: HTTP result, the `loginAttempts` state
after the request, and an instrumentation flag recording whether
`bcrypt.compare` was invoked on this request. -/
structure LoginOut where
  result : LoginResult
  state : ThrottleState
  compared : Bool
deriving DecidableEq, Repr

/-- `exports.login`, translated clause by clause.  `compare` is the
external `bcrypt.compare`; `secret` the JWT signing key; `now` the value
of `Date.now()` during the request. -/
def login (compare : String → String → Bool) (secret : JwtPayload → Int → Nat)
    (users : List User) (email password : Option String) (now : Int)
    (st : ThrottleState) : LoginOut :=
  if jsFalsy email || jsFalsy password then ⟨.badRequest, st, false⟩
  else
    let e := jsInterp email
    let pw := jsInterp password
    match findUserByEmail users e with
    | none => ⟨.invalidCredentials, st, false⟩
    | some u =>
      let st1 := match getAttempt st e with
        | none => setAttempt e ⟨0, none⟩ st
        | some _ => st
      let entry := (getAttempt st1 e).getD ⟨0, none⟩
      if lockedActive entry.lockedUntil now then ⟨.locked, st1, false⟩
      else if compare pw u.password then
        ⟨.success u.id (jwtSign secret ⟨u.id, u.email⟩ now twoHoursMs),
          setAttempt e ⟨0, entry.lockedUntil⟩ st1, true⟩
      else
        let c := entry.count + 1
        let lu := if 5 ≤ c then some (now + lockMs) else entry.lockedUntil
        ⟨.invalidCredentials, setAttempt e ⟨c, lu⟩ st1, true⟩

/-! ## `signup` and `resetPassword` (userController.js) -/

/-- The signup password regex
`/^(?=.*[a-z])(?=.*[A-Z])(?=.*[\W_]).{8,}$/`: no line terminators (the
dot does not match them), length at least 8, at least one ASCII lowercase
letter, one ASCII uppercase letter and one character outside
`[A-Za-z0-9]` (the `[\W_]` class: non-word or underscore). -/
def jsDotMatches (c : Char) : Bool :=
  !(c == '\n' || c == '\r' || c.toNat == 0x2028 || c.toNat == 0x2029)

def isAsciiLower (c : Char) : Bool := 97 ≤ c.toNat && c.toNat ≤ 122
def isAsciiUpper (c : Char) : Bool := 65 ≤ c.toNat && c.toNat ≤ 90
def isAsciiDigit (c : Char) : Bool := 48 ≤ c.toNat && c.toNat ≤ 57

def passwordOk (p : String) : Bool :=
  p.toList.all jsDotMatches
  && decide (8 ≤ p.length)
  && p.toList.any isAsciiLower
  && p.toList.any isAsciiUpper
  && p.toList.any (fun c => !(isAsciiLower c || isAsciiUpper c || isAsciiDigit c))

structure SignupBody where
  firstName : Option String
  lastName : Option String
  age : Option Int
  email : Option String
  password : Option String
deriving Repr

inductive SignupResult where
  /-- 400 "Todos los campos son requeridos" -/
  | missingFields
  /-- 400 "La contraseña debe tener al menos 8 caracteres, ..." -/
  | weakPassword
  /-- 409 "Este correo electrónico ya se encuentra registrado" -/
  | conflict
  /-- 201 "Usuario registrado exitosamente" -/
  | createdUser (userId : String)
deriving DecidableEq, Repr

/-- `exports.signup`.  `hash` is the external `bcrypt.hash(·, 10)`;
`newId` the store-assigned `_id`. -/
def signup (hash : String → String) (newId : String) (b : SignupBody)
    (users : List User) : SignupResult × List User :=
  if jsFalsy b.firstName || jsFalsy b.lastName || jsFalsyInt b.age
      || jsFalsy b.email || jsFalsy b.password then
    (.missingFields, users)
  else if !passwordOk (jsInterp b.password) then
    (.weakPassword, users)
  else
    match findUserByEmail users (jsInterp b.email) with
    | some _ => (.conflict, users)
    | none =>
      let u : User :=
        { id := newId,
          firstName := jsInterp b.firstName, lastName := jsInterp b.lastName,
          age := b.age.getD 0, email := jsInterp b.email,
          password := hash (jsInterp b.password),
          resetPasswordToken := none, resetPasswordExpires := none }
      (.createdUser newId, users ++ [u])

inductive ResetResult where
  /-- 400 "Token inválido o expirado" -/
  | invalidToken
  /-- 200 "Contraseña actualizada correctamente" -/
  | ok
deriving DecidableEq, Repr

/-- The `User.findOne({ resetPasswordToken: token,
resetPasswordExpires: { $gt: Date.now() } })` query. -/
def resetTokenMatches (token : String) (now : Int) (u : User) : Bool :=
  u.resetPasswordToken == some token
  && (match u.resetPasswordExpires with
      | some x => decide (now < x)
      | none => false)

/-- `exports.resetPassword`: note that, unlike `signup`, no password
complexity validation appears anywhere on this path — the new plaintext is
hashed and stored whenever the token lookup succeeds. -/
def resetPassword (hash : String → String) (token password : String)
    (now : Int) (users : List User) : ResetResult × List User :=
  match users.find? (resetTokenMatches token now) with
  | none => (.invalidToken, users)
  | some _ =>
    (.ok,
      updateFirst (resetTokenMatches token now)
        (fun u => { u with password := hash password,
                           resetPasswordToken := none,
                           resetPasswordExpires := none }) users)

/-! ## Auth session middleware (`middleware/auth.js`) -/

inductive AuthResult where
  /-- 401, token missing or invalid/expired -/
  | unauthorized
  /-- `req.user = decoded; next()` -/
  | authed (p : JwtPayload)
deriving DecidableEq, Repr

/-- `authMiddleware` on a non-OPTIONS request: the cookie token, if
present, is verified and its payload attached. -/
def authMiddleware (secret : JwtPayload → Int → Nat)
    (cookieToken : Option Jwt) (now : Int) : AuthResult :=
  match cookieToken with
  | none => .unauthorized
  | some t =>
    match jwtVerify secret now t with
    | none => .unauthorized
    | some p => .authed p

/-! ## Task controller (`taskController.js`) -/

/-- The task fields of a request body (`req.body`); `none` is JS
`undefined`. -/
structure TaskBody where
  title : Option String
  detail : Option String
  date : Option String
  time : Option String
  status : Option String
deriving Repr

/-- The due instant computed by `createTask` and `updateTask` from the
template literal interpolating `date`, `"T"` and `time`; a missing field
interpolates as `"undefined"`, making the result the Invalid Date. -/
def mkDueDate (date time : Option String) : Option Int :=
  jsDateParse (jsInterp date ++ "T" ++ jsInterp time)

inductive CreateResult where
  /-- 400 "Los campos title, dueDate y status son obligatorios" -/
  | missingFields
  /-- 400 "La fecha de vencimiento debe ser futura" -/
  | pastDue
  /-- 201 "Tarea creada con éxito" -/
  | created (t : Task)
deriving DecidableEq, Repr

/-- `exports.createTask`.  `newId` is the store-assigned `_id`. -/
def createTask (now : Int) (uid newId : String) (b : TaskBody)
    (store : List Task) : CreateResult × List Task :=
  if jsFalsy b.title || jsFalsy b.date || jsFalsy b.time || jsFalsy b.status then
    (.missingFields, store)
  else
    let dueDate := mkDueDate b.date b.time
    if jsLtNow dueDate now then (.pastDue, store)
    else
      let t : Task :=
        { id := newId, userId := uid, title := jsInterp b.title,
          detail := b.detail, date := jsInterp b.date, time := jsInterp b.time,
          dueDate := dueDate, status := b.status }
      (.created t, store ++ [t])

/-- The owner-scoped lookup `{ _id: id, userId: req.user.userId }` shared
by `getTaskById`, `updateTask` and `deleteTask`. -/
def ownedTask (tid uid : String) (t : Task) : Bool :=
  t.id == tid && t.userId == uid

def findTask (store : List Task) (tid uid : String) : Option Task :=
  store.find? (ownedTask tid uid)

inductive GetResult where
  /-- 404 "Tarea no encontrada" -/
  | notFound
  /-- 200 with the task -/
  | ok (t : Task)
deriving DecidableEq, Repr

/-- `exports.getTaskById`. -/
def getTaskById (uid tid : String) (store : List Task) : GetResult :=
  match findTask store tid uid with
  | none => .notFound
  | some t => .ok t

inductive UpdateResult where
  /-- 400 "La fecha de vencimiento debe ser futura" -/
  | pastDue
  /-- 404 "Tarea no encontrada" -/
  | notFound
  /-- 200 "Tarea actualizada" -/
  | ok (t : Task)
deriving DecidableEq, Repr

/-- The update document `{ title, detail, date, time, dueDate, status }`
applied to a stored task: fields that are `undefined` in the body are
stripped from the update (Mongoose drops them), while `dueDate` is always
assigned the freshly computed instant, valid or not. -/
def applyUpdate (b : TaskBody) (dueDate : Option Int) (t : Task) : Task :=
  { t with
    title := b.title.getD t.title,
    detail := match b.detail with | none => t.detail | some d => some d,
    date := b.date.getD t.date,
    time := b.time.getD t.time,
    dueDate := dueDate,
    status := match b.status with | none => t.status | some s => some s }

/-- `exports.updateTask`: the due-instant check runs first, then the
owner-scoped `findOneAndUpdate`. -/
def updateTask (now : Int) (uid tid : String) (b : TaskBody)
    (store : List Task) : UpdateResult × List Task :=
  let dueDate := mkDueDate b.date b.time
  if jsLtNow dueDate now then (.pastDue, store)
  else
    match findTask store tid uid with
    | none => (.notFound, store)
    | some t =>
      (.ok (applyUpdate b dueDate t),
        updateFirst (ownedTask tid uid) (applyUpdate b dueDate) store)

inductive DeleteResult where
  /-- 404 "Tarea no encontrada" -/
  | notFound
  /-- 200 "Tarea eliminada con éxito" -/
  | deleted
deriving DecidableEq, Repr

/-- `exports.deleteTask`: owner-scoped `findOneAndDelete`. -/
def deleteTask (uid tid : String) (store : List Task) :
    DeleteResult × List Task :=
  match findTask store tid uid with
  | none => (.notFound, store)
  | some _ => (.deleted, removeFirst (ownedTask tid uid) store)

/-! ## `getUserTasks`: dynamic filter + sort

The `$regex`/`$options: "i"` title filter delegates to the store's regex
engine (an external collaborator); it is modelled on the fragment needed
here: literal characters and the `.` wildcard, matched case-insensitively
(ASCII folding) anywhere in the title. -/

/-- One pattern character against one text character. -/
def reCharMatch (p c : Char) : Bool :=
  p == '.' || p.toLower == c.toLower

/-- The pattern matches at the start of the text. -/
def reMatchHere : List Char → List Char → Bool
  | [], _ => true
  | _ :: _, [] => false
  | p :: ps, c :: cs => reCharMatch p c && reMatchHere ps cs

/-- Unanchored regex test: the pattern matches somewhere in the text. -/
def reTest (ps : List Char) : List Char → Bool
  | [] => reMatchHere ps []
  | c :: cs => reMatchHere ps (c :: cs) || reTest ps cs

/-- `new RegExp(pattern, "i").test(title)` for the modelled fragment. -/
def titleMatches (pattern title : String) : Bool :=
  reTest pattern.toList title.toList

/-- Case-insensitive prefix test on explicit characters (the substring
semantics the spec ascribes to the title filter). -/
def startsWithCI : List Char → List Char → Bool
  | [], _ => true
  | _ :: _, [] => false
  | p :: ps, c :: cs => p.toLower == c.toLower && startsWithCI ps cs

def containsCIList (ps : List Char) : List Char → Bool
  | [] => startsWithCI ps []
  | c :: cs => startsWithCI ps (c :: cs) || containsCIList ps cs

/-- `needle` occurs in `hay` as a case-insensitive substring. -/
def containsCI (needle hay : String) : Bool :=
  containsCIList needle.toList hay.toList

/-- `req.query` of `GET /tasks`. -/
structure TaskQuery where
  status : Option String
  fromDate : Option String
  toDate : Option String
  order : Option String
  title : Option String
deriving Repr

/-- Mongo `$gte` between the stored due date and a parsed bound (no match
on a missing/invalid side). -/
def dueGe : Option Int → Option Int → Bool
  | some a, some b => decide (b ≤ a)
  | _, _ => false

/-- Mongo `$lte` between the stored due date and a parsed bound. -/
def dueLe : Option Int → Option Int → Bool
  | some a, some b => decide (a ≤ b)
  | _, _ => false

/-- The dynamically built `filter` object of `getUserTasks`, as a
predicate: always scoped by `userId`, with each optional clause added only
when the query field is truthy. -/
def matchesQuery (uid : String) (q : TaskQuery) (t : Task) : Bool :=
  t.userId == uid
  && (if jsFalsy q.status then true else t.status == some (jsInterp q.status))
  && (if jsFalsy q.fromDate then true
      else dueGe t.dueDate (jsDateParse (jsInterp q.fromDate)))
  && (if jsFalsy q.toDate then true
      else dueLe t.dueDate (jsDateParse (jsInterp q.toDate)))
  && (if jsFalsy q.title then true else titleMatches (jsInterp q.title) t.title)

/-- Order on stored due dates used by the `.sort({ dueDate: ± 1 })` stage
(position of invalid dates fixed arbitrarily: they sort first). -/
def dueKeyLe : Option Int → Option Int → Bool
  | none, _ => true
  | some _, none => false
  | some a, some b => decide (a ≤ b)

def insertTaskBy (le : Task → Task → Bool) (t : Task) : List Task → List Task
  | [] => [t]
  | x :: xs => if le t x then t :: x :: xs else x :: insertTaskBy le t xs

def sortTasksBy (le : Task → Task → Bool) : List Task → List Task
  | [] => []
  | t :: ts => insertTaskBy le t (sortTasksBy le ts)

/-- `exports.getUserTasks`: filter then sort by due date,
descending only when `order === "desc"`. -/
def getUserTasks (uid : String) (q : TaskQuery) (store : List Task) :
    List Task :=
  let le : Task → Task → Bool :=
    if q.order == some "desc" then fun a b => dueKeyLe b.dueDate a.dueDate
    else fun a b => dueKeyLe a.dueDate b.dueDate
  sortTasksBy le (store.filter (matchesQuery uid q))

/-! ## `getTaskStats` -/

/-- The `$ifNull: ["$status", "sin-estado"]` grouping key. -/
def statusKey (t : Task) : String := t.status.getD "sin-estado"

/-- Add one observation of key `s` to the running group counts. -/
def bump (s : String) : List (String × Nat) → List (String × Nat)
  | [] => [(s, 1)]
  | (k, c) :: rest =>
    if k == s then (k, c + 1) :: rest else (k, c) :: bump s rest

/-- Insert into a count-descending list, keeping earlier elements in front
of equal counts. -/
def insertByCount (x : String × Nat) : List (String × Nat) → List (String × Nat)
  | [] => [x]
  | y :: ys => if y.2 ≤ x.2 then x :: y :: ys else y :: insertByCount x ys

/-- The `$sort: { count: -1 }` stage. -/
def sortByCountDesc : List (String × Nat) → List (String × Nat)
  | [] => []
  | x :: xs => insertByCount x (sortByCountDesc xs)

structure StatsResult where
  total : Nat
  byStatus : List (String × Nat)
deriving DecidableEq, Repr

/-- `exports.getTaskStats`: the aggregation pipeline
(match owner, group by `statusKey`, sort by count descending) next to an
independent `countDocuments({ userId })` for the total. -/
def getTaskStats (uid : String) (store : List Task) : StatsResult :=
  let ownerTasks := store.filter (fun t => t.userId == uid)
  let stats :=
    sortByCountDesc (ownerTasks.foldl (fun acc t => bump (statusKey t) acc) [])
  let totalTasks := (store.filter (fun t => t.userId == uid)).length
  { total := totalTasks, byStatus := stats }

/-! ## Concrete data used by witnesses and counterexamples

A one-user store, a bcrypt model in which `compare p h` checks
`h = p ++ "#"` (with `hash p = "H(" ++ p ++ ")"` for the reset flow), an
arbitrary concrete MAC function, and a handful of concrete tasks. -/

def cmpW : String → String → Bool := fun p h => p ++ "#" == h

def secW : JwtPayload → Int → Nat := fun p x => p.email.length + x.toNat

def userW : User := ⟨"u1", "Ana", "Diaz", 20, "a@b.c", "Good1#", none, none⟩

def usersW : List User := [userW]

def c1s1 : ThrottleState :=
  (login cmpW secW usersW (some "a@b.c") (some "bad") 1 []).state

def c1s2 : ThrottleState :=
  (login cmpW secW usersW (some "a@b.c") (some "bad") 2 c1s1).state

def c1s3 : ThrottleState :=
  (login cmpW secW usersW (some "a@b.c") (some "bad") 3 c1s2).state

def c1s4 : ThrottleState :=
  (login cmpW secW usersW (some "a@b.c") (some "bad") 4 c1s3).state

def c1s5 : ThrottleState :=
  (login cmpW secW usersW (some "a@b.c") (some "bad") 5 c1s4).state

def hashW : String → String := fun s => "H(" ++ s ++ ")"

def resetUserW : User :=
  ⟨"u2", "Bo", "Lee", 30, "r@b.c", "Old1!#", some "tok", some 100⟩

def resetUsersW : List User := [resetUserW]

def otherTask : Task :=
  ⟨"t9", "owner2", "secret", none, "2099-01-05", "12:30",
    some 4071299400000, some "todo"⟩

def bodyW5 : TaskBody :=
  ⟨some "Tarea", none, some "2099-01-05", some "12:30", some "todo"⟩

def bodyW10 : TaskBody := ⟨some "x", none, none, some "12:30", some "done"⟩

def myTask : Task :=
  ⟨"t1", "me", "old", none, "2099-01-05", "12:30",
    some 4071299400000, some "todo"⟩

def noStatusTask : Task :=
  ⟨"t1", "u1", "x", none, "2099-01-01", "00:00", none, none⟩

def statsTasks : List Task :=
  [⟨"t1", "u1", "a", none, "d", "h", none, some "todo"⟩,
   ⟨"t2", "u1", "b", none, "d", "h", none, some "todo"⟩,
   ⟨"t3", "u1", "c", none, "d", "h", none, some "done"⟩]

def regexTask : Task := ⟨"t1", "u1", "abc", none, "d", "h", none, some "todo"⟩

/-! ## Structural lemmas about the throttle table -/

theorem getAttempt_setAttempt_self (e : String) (a : AttemptEntry)
    (st : ThrottleState) : getAttempt (setAttempt e a st) e = some a := by
  induction st with
  | nil => simp [getAttempt, setAttempt]
  | cons p rest ih =>
    obtain ⟨k, v⟩ := p
    by_cases h : k == e
    · simp [setAttempt, h, getAttempt]
    · simp only [setAttempt, h, if_neg, Bool.false_eq_true, ite_false]
      simpa [getAttempt, h] using ih

theorem setAttempt_setAttempt (e : String) (a b : AttemptEntry)
    (st : ThrottleState) :
    setAttempt e a (setAttempt e b st) = setAttempt e a st := by
  induction st with
  | nil => simp [setAttempt]
  | cons p rest ih =>
    obtain ⟨k, v⟩ := p
    by_cases h : k == e
    · simp [setAttempt, h]
    · simp [setAttempt, h, ih]

/-! ## Single-request lemmas about `login` -/

theorem login_unknown_email (compare : String → String → Bool)
    (secret : JwtPayload → Int → Nat) (users : List User) (e pw : String)
    (now : Int) (st : ThrottleState)
    (he : e ≠ "") (hpw : pw ≠ "")
    (hu : findUserByEmail users e = none) :
    login compare secret users (some e) (some pw) now st =
      ⟨.invalidCredentials, st, false⟩ := by
  have he' : (e == "") = false := by simpa using he
  have hpw' : (pw == "") = false := by simpa using hpw
  simp [login, jsFalsy, jsInterp, he', hpw', hu]

theorem login_entry_step (compare : String → String → Bool)
    (secret : JwtPayload → Int → Nat) (users : List User) (u : User)
    (e pw : String) (now : Int) (st : ThrottleState) (c : Nat)
    (lu : Option Int)
    (he : e ≠ "") (hpw : pw ≠ "")
    (hu : findUserByEmail users e = some u)
    (hc : getAttempt st e = some ⟨c, lu⟩)
    (hnl : lockedActive lu now = false) :
    login compare secret users (some e) (some pw) now st =
      if compare pw u.password then
        ⟨.success u.id (jwtSign secret ⟨u.id, u.email⟩ now twoHoursMs),
          setAttempt e ⟨0, lu⟩ st, true⟩
      else
        ⟨.invalidCredentials,
          setAttempt e ⟨c + 1, if 5 ≤ c + 1 then some (now + lockMs) else lu⟩ st,
          true⟩ := by
  have he' : (e == "") = false := by simpa using he
  have hpw' : (pw == "") = false := by simpa using hpw
  simp only [login, jsFalsy, jsInterp, he', hpw', Bool.or_self,
    Bool.false_eq_true, if_false, hu, hc, Option.getD_some]
  cases hcmp : compare pw u.password <;> simp [hcmp, hnl]

theorem login_no_entry_step (compare : String → String → Bool)
    (secret : JwtPayload → Int → Nat) (users : List User) (u : User)
    (e pw : String) (now : Int) (st : ThrottleState)
    (he : e ≠ "") (hpw : pw ≠ "")
    (hu : findUserByEmail users e = some u)
    (h0 : getAttempt st e = none) :
    login compare secret users (some e) (some pw) now st =
      if compare pw u.password then
        ⟨.success u.id (jwtSign secret ⟨u.id, u.email⟩ now twoHoursMs),
          setAttempt e ⟨0, none⟩ st, true⟩
      else
        ⟨.invalidCredentials, setAttempt e ⟨1, none⟩ st, true⟩ := by
  have he' : (e == "") = false := by simpa using he
  have hpw' : (pw == "") = false := by simpa using hpw
  simp only [login, jsFalsy, jsInterp, he', hpw', Bool.or_self,
    Bool.false_eq_true, if_false, hu, h0, getAttempt_setAttempt_self,
    Option.getD_some]
  cases hcmp : compare pw u.password <;>
    simp [hcmp, lockedActive, setAttempt_setAttempt]

theorem login_locked_step (compare : String → String → Bool)
    (secret : JwtPayload → Int → Nat) (users : List User) (u : User)
    (e pw : String) (now : Int) (st : ThrottleState) (c : Nat) (l : Int)
    (he : e ≠ "") (hpw : pw ≠ "")
    (hu : findUserByEmail users e = some u)
    (hc : getAttempt st e = some ⟨c, some l⟩)
    (hl0 : l ≠ 0) (hnow : now < l) :
    login compare secret users (some e) (some pw) now st =
      ⟨.locked, st, false⟩ := by
  have he' : (e == "") = false := by simpa using he
  have hpw' : (pw == "") = false := by simpa using hpw
  have hact : lockedActive (some l) now = true := by
    simp [lockedActive, hnow, hl0]
  simp [login, jsFalsy, jsInterp, he', hpw', hu, hc, hact]

/-! ## C1: login lockout -/

/-- C1: for every registered email, after 5 consecutive failed login
attempts a 6th attempt within the 15-minute window is answered with the
locked status (423), with the throttle state unchanged and no credential
comparison performed (`compared = false`, whatever password is offered);
once the window has elapsed, an attempt with the correct password
succeeds and resets that email's failure counter to 0. -/
theorem c1_lockout (compare : String → String → Bool)
    (secret : JwtPayload → Int → Nat) (users : List User) (u : User)
    (e goodPw badPw : String)
    (hu : findUserByEmail users e = some u)
    (hbad : compare badPw u.password = false)
    (hgood : compare goodPw u.password = true)
    (he : e ≠ "") (hbadne : badPw ≠ "") (hgoodne : goodPw ≠ "")
    (t1 t2 t3 t4 t5 : Int) (ht5 : 0 ≤ t5)
    (st0 : ThrottleState) (h0 : getAttempt st0 e = none)
    (s1 s2 s3 s4 s5 : ThrottleState)
    (h1 : s1 = (login compare secret users (some e) (some badPw) t1 st0).state)
    (h2 : s2 = (login compare secret users (some e) (some badPw) t2 s1).state)
    (h3 : s3 = (login compare secret users (some e) (some badPw) t3 s2).state)
    (h4 : s4 = (login compare secret users (some e) (some badPw) t4 s3).state)
    (h5 : s5 = (login compare secret users (some e) (some badPw) t5 s4).state) :
    getAttempt s5 e = some ⟨5, some (t5 + lockMs)⟩
    ∧ (∀ t6 pw, pw ≠ "" → t6 < t5 + lockMs →
        login compare secret users (some e) (some pw) t6 s5 = ⟨.locked, s5, false⟩)
    ∧ (∀ t7, t5 + lockMs ≤ t7 →
        (login compare secret users (some e) (some goodPw) t7 s5).result
          = .success u.id (jwtSign secret ⟨u.id, u.email⟩ t7 twoHoursMs)
        ∧ getAttempt
            (login compare secret users (some e) (some goodPw) t7 s5).state e
          = some ⟨0, some (t5 + lockMs)⟩) := by
  have g1 : getAttempt s1 e = some ⟨1, none⟩ := by
    rw [h1, login_no_entry_step compare secret users u e badPw t1 st0
      he hbadne hu h0, hbad]
    simp [getAttempt_setAttempt_self]
  have g2 : getAttempt s2 e = some ⟨2, none⟩ := by
    rw [h2, login_entry_step compare secret users u e badPw t2 s1 1 none
      he hbadne hu g1 rfl, hbad]
    simp [getAttempt_setAttempt_self]
  have g3 : getAttempt s3 e = some ⟨3, none⟩ := by
    rw [h3, login_entry_step compare secret users u e badPw t3 s2 2 none
      he hbadne hu g2 rfl, hbad]
    simp [getAttempt_setAttempt_self]
  have g4 : getAttempt s4 e = some ⟨4, none⟩ := by
    rw [h4, login_entry_step compare secret users u e badPw t4 s3 3 none
      he hbadne hu g3 rfl, hbad]
    simp [getAttempt_setAttempt_self]
  have g5 : getAttempt s5 e = some ⟨5, some (t5 + lockMs)⟩ := by
    rw [h5, login_entry_step compare secret users u e badPw t5 s4 4 none
      he hbadne hu g4 rfl, hbad]
    simp [getAttempt_setAttempt_self]
  have hlpos : (0 : Int) < t5 + lockMs := by
    have : (0 : Int) < lockMs := by norm_num [lockMs]
    omega
  refine ⟨g5, ?_, ?_⟩
  · intro t6 pw hpw ht6
    exact login_locked_step compare secret users u e pw t6 s5 5 (t5 + lockMs)
      he hpw hu g5 (by omega) ht6
  · intro t7 ht7
    have hnl : lockedActive (some (t5 + lockMs)) t7 = false := by
      simp [lockedActive, decide_eq_false (not_lt.mpr ht7)]
    rw [login_entry_step compare secret users u e goodPw t7 s5 5
      (some (t5 + lockMs)) he hgoodne hu g5 hnl, hgood]
    simp [getAttempt_setAttempt_self]

/-- Witness for `c1_lockout` at a concrete trace: five failures at times
1..5, a locked 6th attempt at time 6, and a successful reset at the end
of the window. -/
theorem c1_lockout_witness :
    getAttempt c1s5 "a@b.c" = some ⟨5, some (5 + lockMs)⟩
    ∧ login cmpW secW usersW (some "a@b.c") (some "bad") 6 c1s5
        = ⟨.locked, c1s5, false⟩
    ∧ (login cmpW secW usersW (some "a@b.c") (some "Good1") (5 + lockMs) c1s5).result
        = .success "u1" (jwtSign secW ⟨"u1", "a@b.c"⟩ (5 + lockMs) twoHoursMs) := by
  obtain ⟨w1, w2, w3⟩ :=
    c1_lockout cmpW secW usersW userW "a@b.c" "Good1" "bad" rfl (by decide)
      (by decide) (by decide) (by decide) (by decide) 1 2 3 4 5 (by decide)
      [] rfl c1s1 c1s2 c1s3 c1s4 c1s5 rfl rfl rfl rfl rfl
  exact ⟨w1, w2 6 "bad" (by decide) (by decide), (w3 (5 + lockMs) le_rfl).1⟩

/-! ## C4: throttle entry lifecycle -/

/-- C4 as stated is false: the claim says the Login Throttle entry is
created "on the first failed login attempt (and only then)", but the
source creates it at the top of every `login` request for a registered
email — here a first attempt with the *correct* password succeeds and
still leaves a fresh entry (count 0, no lock) behind. -/
theorem c4_created_on_success_counterexample :
    (login cmpW secW usersW (some "a@b.c") (some "Good1") 10 []).result
      = .success "u1" (jwtSign secW ⟨"u1", "a@b.c"⟩ 10 twoHoursMs)
    ∧ getAttempt
        (login cmpW secW usersW (some "a@b.c") (some "Good1") 10 []).state
        "a@b.c"
      ≠ none := by
  refine ⟨rfl, ?_⟩
  decide

/-- C4 (amended): the throttle entry for a registered email is created
lazily on that email's first login attempt with both fields present —
whatever the outcome of the credential check — and never for an unknown
email; `failureCount` resets to 0 on successful authentication (with
`lockedUntil` preserved); and once the counter reaches 5 a failure sets
`lockedUntil = now + 15 min` without resetting the counter. -/
theorem c4_throttle_lifecycle (compare : String → String → Bool)
    (secret : JwtPayload → Int → Nat) (users : List User) (u : User)
    (e pw : String) (now : Int) (st : ThrottleState)
    (he : e ≠ "") (hpw : pw ≠ "")
    (hu : findUserByEmail users e = some u) :
    (getAttempt st e = none →
      (login compare secret users (some e) (some pw) now st).state
        = if compare pw u.password then setAttempt e ⟨0, none⟩ st
          else setAttempt e ⟨1, none⟩ st)
    ∧ (∀ c lu, getAttempt st e = some ⟨c, lu⟩ →
        lockedActive lu now = false → compare pw u.password = true →
        (login compare secret users (some e) (some pw) now st).state
          = setAttempt e ⟨0, lu⟩ st)
    ∧ (∀ c lu, getAttempt st e = some ⟨c, lu⟩ →
        lockedActive lu now = false → compare pw u.password = false → 4 ≤ c →
        (login compare secret users (some e) (some pw) now st).state
          = setAttempt e ⟨c + 1, some (now + lockMs)⟩ st)
    ∧ (∀ users', findUserByEmail users' e = none →
        login compare secret users' (some e) (some pw) now st
          = ⟨.invalidCredentials, st, false⟩) := by
  refine ⟨?_, ?_, ?_, ?_⟩
  · intro h0
    rw [login_no_entry_step compare secret users u e pw now st he hpw hu h0]
    cases hcmp : compare pw u.password <;> simp [hcmp]
  · intro c lu hc hnl hcmp
    rw [login_entry_step compare secret users u e pw now st c lu
      he hpw hu hc hnl, hcmp]
    simp
  · intro c lu hc hnl hcmp h4
    rw [login_entry_step compare secret users u e pw now st c lu
      he hpw hu hc hnl, hcmp]
    have h5 : 5 ≤ c + 1 := by omega
    simp [h5]
  · intro users' hu'
    exact login_unknown_email compare secret users' e pw now st he hpw hu'

/-- Witness for `c4_throttle_lifecycle`: entry creation by a successful
first attempt, and the lock being set on the 5th failure. -/
theorem c4_throttle_lifecycle_witness :
    (login cmpW secW usersW (some "a@b.c") (some "Good1") 10 []).state
      = setAttempt "a@b.c" ⟨0, none⟩ []
    ∧ (login cmpW secW usersW (some "a@b.c") (some "bad") 77
        [("a@b.c", ⟨4, none⟩)]).state
      = setAttempt "a@b.c" ⟨5, some (77 + lockMs)⟩ [("a@b.c", ⟨4, none⟩)] := by
  constructor
  · have h := (c4_throttle_lifecycle cmpW secW usersW userW "a@b.c" "Good1"
      10 [] (by decide) (by decide) rfl).1 rfl
    exact h.trans (by decide)
  · exact (c4_throttle_lifecycle cmpW secW usersW userW "a@b.c" "bad" 77
      [("a@b.c", ⟨4, none⟩)] (by decide) (by decide) rfl).2.2.1 4 none rfl rfl
      (by decide) (by decide)

/-! ## C7: token issuance and verification -/

/-- C7: a successful login issues a signed token carrying the user's
identity-id and email with a fixed 2-hour lifetime; verifying it (through
the auth middleware) strictly within those 2 hours decodes to the same
identity-id and email, while verification at or after expiry, or with a
tampered signature, is rejected. -/
theorem c7_token_lifecycle (compare : String → String → Bool)
    (secret : JwtPayload → Int → Nat) (users : List User) (u : User)
    (e pw : String) (now : Int) (st : ThrottleState)
    (he : e ≠ "") (hpw : pw ≠ "")
    (hu : findUserByEmail users e = some u)
    (h0 : getAttempt st e = none)
    (hcmp : compare pw u.password = true) :
    ∀ tok,
      (login compare secret users (some e) (some pw) now st).result
        = .success u.id tok →
      tok.payload = ⟨u.id, u.email⟩
      ∧ tok.exp = now + twoHoursMs
      ∧ (∀ t, t < now + twoHoursMs →
          authMiddleware secret (some tok) t = .authed ⟨u.id, u.email⟩)
      ∧ (∀ t, now + twoHoursMs ≤ t →
          authMiddleware secret (some tok) t = .unauthorized)
      ∧ (∀ s t, s ≠ secret tok.payload tok.exp →
          authMiddleware secret (some { tok with sig := s }) t
            = .unauthorized) := by
  intro tok htok
  rw [login_no_entry_step compare secret users u e pw now st he hpw hu h0,
    hcmp] at htok
  simp only [if_true] at htok
  have htok' : tok = jwtSign secret ⟨u.id, u.email⟩ now twoHoursMs := by
    cases htok
    rfl
  subst htok'
  refine ⟨rfl, rfl, ?_, ?_, ?_⟩
  · intro t ht
    simp [authMiddleware, jwtVerify, jwtSign, ht]
  · intro t ht
    simp [authMiddleware, jwtVerify, jwtSign, decide_eq_false (not_lt.mpr ht)]
  · intro s t hs
    have : (s == secret (jwtSign secret ⟨u.id, u.email⟩ now twoHoursMs).payload
        (jwtSign secret ⟨u.id, u.email⟩ now twoHoursMs).exp) = false := by
      simpa [jwtSign] using hs
    simp [authMiddleware, jwtVerify, jwtSign] at this ⊢
    simp [this]

/-- Witness for `c7_token_lifecycle`: the concrete token issued at time 10
verifies at time 11 to the same identity and is rejected exactly at
expiry. -/
theorem c7_token_lifecycle_witness :
    authMiddleware secW (some (jwtSign secW ⟨"u1", "a@b.c"⟩ 10 twoHoursMs)) 11
      = .authed ⟨"u1", "a@b.c"⟩
    ∧ authMiddleware secW (some (jwtSign secW ⟨"u1", "a@b.c"⟩ 10 twoHoursMs))
        (10 + twoHoursMs)
      = .unauthorized := by
  have h := c7_token_lifecycle cmpW secW usersW userW "a@b.c" "Good1" 10 []
    (by decide) (by decide) rfl rfl (by decide)
    (jwtSign secW ⟨"u1", "a@b.c"⟩ 10 twoHoursMs) rfl
  exact ⟨h.2.2.1 11 (by decide), h.2.2.2.1 (10 + twoHoursMs) le_rfl⟩

/-! ## C2: password complexity policy -/

/-- C2 as stated is false for the reset flow: `resetPassword` contains no
complexity validation, so with a valid, unexpired token the weak new
password `"abc"` is accepted (200) and its hash is stored. -/
theorem c2_reset_no_policy_counterexample :
    passwordOk "abc" = false
    ∧ (resetPassword hashW "tok" "abc" 50 resetUsersW).1 = .ok
    ∧ (resetPassword hashW "tok" "abc" 50 resetUsersW).2.map User.password
        = [hashW "abc"] := by
  exact ⟨by decide, rfl, rfl⟩

/-- C2 (amended): the complexity policy is enforced at signup only — a
signup whose password fails the policy is rejected with the 400
weak-password validation error before any credential is stored, while
`resetPassword` performs no complexity validation: whenever the token
lookup succeeds the hash of the new password is stored, however weak. -/
theorem c2_password_policy (hash : String → String) (newId : String)
    (b : SignupBody) (users : List User)
    (h1 : jsFalsy b.firstName = false) (h2 : jsFalsy b.lastName = false)
    (h3 : jsFalsyInt b.age = false) (h4 : jsFalsy b.email = false)
    (h5 : jsFalsy b.password = false)
    (hweak : passwordOk (jsInterp b.password) = false) :
    signup hash newId b users = (.weakPassword, users)
    ∧ ∀ (token pw : String) (now : Int) (users' : List User) (u' : User),
        users'.find? (resetTokenMatches token now) = some u' →
        (resetPassword hash token pw now users').1 = .ok := by
  constructor
  · simp [signup, h1, h2, h3, h4, h5, hweak]
  · intro token pw now users' u' hfind
    simp [resetPassword, hfind]

/-- Witness for `c2_password_policy`: a concrete weak-password signup and
a concrete weak-password reset. -/
theorem c2_password_policy_witness :
    signup hashW "u9" ⟨some "A", some "B", some 20, some "n@b.c", some "abc"⟩ []
      = (.weakPassword, [])
    ∧ (resetPassword hashW "tok" "abc" 50 resetUsersW).1 = .ok := by
  have h := c2_password_policy hashW "u9"
    ⟨some "A", some "B", some 20, some "n@b.c", some "abc"⟩ []
    rfl rfl rfl rfl rfl (by decide)
  exact ⟨h.1, h.2 "tok" "abc" 50 resetUsersW resetUserW (by decide)⟩

/-! ## C3: ownership scoping of task by-id operations -/

/-- C3: every by-id read/update/delete is scoped by the authenticated
owner's id, so when every task carrying the requested id belongs to a
different owner, `getTaskById`, `updateTask` and `deleteTask` answer
not-found (404) without returning or modifying the task's data — the
store is unchanged in every case (the update hypothesis reflects that
its due-date validation runs before the lookup). -/
theorem c3_ownership (uid tid : String) (store : List Task)
    (h : ∀ t ∈ store, t.id = tid → t.userId ≠ uid) (now : Int) (b : TaskBody) :
    getTaskById uid tid store = .notFound
    ∧ deleteTask uid tid store = (.notFound, store)
    ∧ (updateTask now uid tid b store).2 = store
    ∧ (jsLtNow (mkDueDate b.date b.time) now = false →
        updateTask now uid tid b store = (.notFound, store)) := by
  have hf : findTask store tid uid = none := by
    apply List.find?_eq_none.mpr
    intro t ht
    simp only [ownedTask, Bool.and_eq_true, beq_iff_eq, not_and]
    intro hid
    exact h t ht hid
  refine ⟨?_, ?_, ?_, ?_⟩
  · simp [getTaskById, hf]
  · simp [deleteTask, hf]
  · cases hlt : jsLtNow (mkDueDate b.date b.time) now <;>
      simp [updateTask, hlt, hf]
  · intro hnp
    simp [updateTask, hnp, hf]

/-- Witness for `c3_ownership`: user `"me"` asking for a task owned by
`"owner2"`. -/
theorem c3_ownership_witness :
    getTaskById "me" "t9" [otherTask] = .notFound
    ∧ updateTask 0 "me" "t9"
        ⟨some "x", none, some "2099-01-05", some "12:30", some "done"⟩
        [otherTask]
      = (.notFound, [otherTask]) := by
  have h := c3_ownership "me" "t9" [otherTask] (by decide) 0
    ⟨some "x", none, some "2099-01-05", some "12:30", some "done"⟩
  exact ⟨h.1, h.2.2.2 (by decide)⟩

/-! ## C5: strict future due-instant validation -/

/-- C5: with all required fields present, a creation whose combined
due-instant parses strictly in the past is rejected with the 400 past-due
error regardless of the remaining fields, and the same check governs
updates; a due-instant strictly in the future — even one second ahead —
is not rejected by this check: creation succeeds and an update never
takes the past-due branch. -/
theorem c5_due_instant (now : Int) (uid newId tid : String) (b : TaskBody)
    (store : List Task) (d : Int)
    (hparse : mkDueDate b.date b.time = some d)
    (ht : jsFalsy b.title = false) (hd : jsFalsy b.date = false)
    (hm : jsFalsy b.time = false) (hs : jsFalsy b.status = false) :
    (d < now →
      createTask now uid newId b store = (.pastDue, store)
      ∧ updateTask now uid tid b store = (.pastDue, store))
    ∧ (now < d →
        (∃ t, createTask now uid newId b store = (.created t, store ++ [t])
            ∧ t.dueDate = some d)
        ∧ (updateTask now uid tid b store).1 ≠ .pastDue) := by
  constructor
  · intro hlt
    have hjs : jsLtNow (mkDueDate b.date b.time) now = true := by
      simp [jsLtNow, hparse, hlt]
    exact ⟨by simp [createTask, ht, hd, hm, hs, hjs], by simp [updateTask, hjs]⟩
  · intro hgt
    have hjs : jsLtNow (mkDueDate b.date b.time) now = false := by
      simp only [jsLtNow, hparse, decide_eq_false_iff_not, not_lt]
      omega
    constructor
    · refine ⟨(⟨newId, uid, jsInterp b.title, b.detail, jsInterp b.date,
          jsInterp b.time, mkDueDate b.date b.time, b.status⟩ : Task), ?_, ?_⟩
      · simp [createTask, ht, hd, hm, hs, hjs]
      · simpa using hparse
    · cases hft : findTask store tid uid <;> simp [updateTask, hjs, hft]

/-- Witness for `c5_due_instant`: the due instant 2099-01-05T12:30 (epoch
ms 4071299400000) is rejected one second after it has passed and accepted
one second before. -/
theorem c5_due_instant_witness :
    createTask (4071299400000 + 1000) "u1" "tN" bodyW5 [] = (.pastDue, [])
    ∧ (updateTask (4071299400000 - 1000) "u1" "t9" bodyW5 [otherTask]).1
        ≠ .pastDue := by
  refine ⟨((c5_due_instant (4071299400000 + 1000) "u1" "tN" "t9" bodyW5 []
      4071299400000 (by decide) rfl rfl rfl rfl).1 (by decide)).1, ?_⟩
  exact ((c5_due_instant (4071299400000 - 1000) "u1" "tN" "t9" bodyW5
      [otherTask] 4071299400000 (by decide) rfl rfl rfl rfl).2 (by decide)).2

/-! ## C6: default status at creation -/

/-- C6 names a real divergence in the code: the task schema declares
`status` optional with default `"todo"` and `createTaskValidation` marks
it `.optional()`, but the `createTask` controller requires it — a request
with valid title, date and time and no status is answered with the 400
missing-fields error instead of creating a `"todo"` task, while the same
request with an explicit status succeeds. -/
theorem c6_status_required_bug :
    createTask 0 "u1" "t1"
        ⟨some "Tarea", none, some "2099-01-05", some "12:30", none⟩ []
      = (.missingFields, [])
    ∧ (createTask 0 "u1" "t1"
        ⟨some "Tarea", none, some "2099-01-05", some "12:30", some "todo"⟩ []).1
      = .created ⟨"t1", "u1", "Tarea", none, "2099-01-05", "12:30",
          some 4071299400000, some "todo"⟩ := by
  exact ⟨rfl, rfl⟩

/-! ## C10: invalid due-instant at update -/

/-- C10: when the date or time field of an update is absent or does not
parse, the combined due-instant is the Invalid Date, whose comparison
against the current time is false — so the past-due 400 branch is never
taken and the update proceeds to the owner-scoped store update carrying
the invalid due-instant. -/
theorem c10_invalid_due_update (now : Int) (uid tid : String) (b : TaskBody)
    (store : List Task)
    (hbad : mkDueDate b.date b.time = none) :
    jsLtNow (mkDueDate b.date b.time) now = false
    ∧ (updateTask now uid tid b store).1 ≠ .pastDue
    ∧ (∀ t, findTask store tid uid = some t →
        updateTask now uid tid b store
          = (.ok (applyUpdate b none t),
              updateFirst (ownedTask tid uid) (applyUpdate b none) store)
        ∧ (applyUpdate b none t).dueDate = none) := by
  have hjs : jsLtNow (mkDueDate b.date b.time) now = false := by
    simp [jsLtNow, hbad]
  refine ⟨hjs, ?_, ?_⟩
  · cases hft : findTask store tid uid <;> simp [updateTask, hjs, hft]
  · intro t hft
    exact ⟨by simp [updateTask, jsLtNow, hft, hbad], rfl⟩

/-- Witness for `c10_invalid_due_update`: an update whose `date` field is
absent interpolates to an unparseable string, skips the past-due check and
reaches the store with an invalid due-instant. -/
theorem c10_invalid_due_update_witness :
    (updateTask 0 "me" "t1" bodyW10 [myTask]).1 ≠ .pastDue
    ∧ updateTask 0 "me" "t1" bodyW10 [myTask]
        = (.ok (applyUpdate bodyW10 none myTask),
            updateFirst (ownedTask "t1" "me") (applyUpdate bodyW10 none)
              [myTask]) := by
  have h := c10_invalid_due_update 0 "me" "t1" bodyW10 [myTask] (by decide)
  exact ⟨h.2.1, (h.2.2 myTask rfl).1⟩

/-! ## Lemmas about the stats pipeline -/

theorem mem_insertByCount (x y : String × Nat) (l : List (String × Nat)) :
    y ∈ insertByCount x l ↔ y = x ∨ y ∈ l := by
  induction l with
  | nil => simp [insertByCount]
  | cons z zs ih =>
    by_cases h : z.2 ≤ x.2
    · simp [insertByCount, h]
    · simp [insertByCount, h, ih]
      tauto

theorem pairwise_insertByCount (x : String × Nat) (l : List (String × Nat))
    (h : List.Pairwise (fun a b : String × Nat => b.2 ≤ a.2) l) :
    List.Pairwise (fun a b : String × Nat => b.2 ≤ a.2) (insertByCount x l) := by
  induction l with
  | nil => simp [insertByCount]
  | cons z zs ih =>
    rw [List.pairwise_cons] at h
    by_cases hz : z.2 ≤ x.2
    · simp only [insertByCount, hz, if_pos]
      refine List.Pairwise.cons ?_ (List.Pairwise.cons h.1 h.2)
      intro y hy
      rcases List.mem_cons.mp hy with hy | hy
      · exact hy ▸ hz
      · exact le_trans (h.1 y hy) hz
    · simp only [insertByCount, hz, if_neg, Bool.false_eq_true, ite_false]
      refine List.Pairwise.cons ?_ (ih h.2)
      intro y hy
      rcases (mem_insertByCount x y zs).mp hy with hy | hy
      · exact hy ▸ le_of_not_le hz
      · exact h.1 y hy

theorem pairwise_sortByCountDesc (l : List (String × Nat)) :
    List.Pairwise (fun a b : String × Nat => b.2 ≤ a.2) (sortByCountDesc l) := by
  induction l with
  | nil => simp [sortByCountDesc]
  | cons x xs ih => exact pairwise_insertByCount x _ ih

theorem sum_insertByCount (x : String × Nat) (l : List (String × Nat)) :
    ((insertByCount x l).map Prod.snd).sum = x.2 + (l.map Prod.snd).sum := by
  induction l with
  | nil => simp [insertByCount]
  | cons z zs ih =>
    by_cases h : z.2 ≤ x.2
    · simp [insertByCount, h]
    · simp [insertByCount, h, ih]
      omega

theorem sum_sortByCountDesc (l : List (String × Nat)) :
    ((sortByCountDesc l).map Prod.snd).sum = (l.map Prod.snd).sum := by
  induction l with
  | nil => rfl
  | cons x xs ih => simp [sortByCountDesc, sum_insertByCount, ih]

theorem sum_bump (s : String) (l : List (String × Nat)) :
    ((bump s l).map Prod.snd).sum = (l.map Prod.snd).sum + 1 := by
  induction l with
  | nil => simp [bump]
  | cons z zs ih =>
    by_cases h : z.1 == s
    · simp [bump, h]
      omega
    · simp [bump, h, ih]
      omega

theorem sum_foldl_bump (ts : List Task) :
    ∀ acc : List (String × Nat),
      ((ts.foldl (fun acc t => bump (statusKey t) acc) acc).map Prod.snd).sum
        = (acc.map Prod.snd).sum + ts.length := by
  induction ts with
  | nil => intro acc; simp
  | cons t ts ih =>
    intro acc
    simp only [List.foldl_cons, ih, sum_bump, List.length_cons]
    omega

/-! ## C8: stats aggregation -/

/-- C8 as stated is false in one detail: a task with no status value is
bucketed under the code's sentinel label `"sin-estado"`, not under
`"unset"`. -/
theorem c8_sentinel_counterexample :
    (getTaskStats "u1" [noStatusTask]).byStatus = [("sin-estado", 1)]
    ∧ "sin-estado" ≠ "unset" := by
  exact ⟨rfl, by decide⟩

/-- C8 (amended): the stats operation groups all of the owner's tasks by
status — tasks with no status value bucketed under the sentinel label
`"sin-estado"` — emits (status, count) pairs sorted by count descending,
and reports a total computed independently of the groups as the owner's
document count (the group counts nevertheless sum to it); for statuses
[todo, todo, done] it returns total 3 and [("todo", 2), ("done", 1)], and
for zero tasks it returns total 0 and an empty list. -/
theorem c8_stats_aggregation :
    getTaskStats "u1" statsTasks = ⟨3, [("todo", 2), ("done", 1)]⟩
    ∧ (∀ uid, getTaskStats uid [] = ⟨0, []⟩)
    ∧ (∀ uid store, (getTaskStats uid store).total
        = (store.filter (fun t => t.userId == uid)).length)
    ∧ (∀ uid store, List.Pairwise (fun a b : String × Nat => b.2 ≤ a.2)
        (getTaskStats uid store).byStatus)
    ∧ (∀ uid store, ((getTaskStats uid store).byStatus.map Prod.snd).sum
        = (getTaskStats uid store).total) := by
  refine ⟨by decide, fun uid => rfl, fun uid store => rfl, ?_, ?_⟩
  · intro uid store
    simp only [getTaskStats]
    exact pairwise_sortByCountDesc _
  · intro uid store
    simp only [getTaskStats]
    rw [sum_sortByCountDesc, sum_foldl_bump]
    simp

/-! ## Lemmas about the list query: sorting and the regex fragment -/

theorem mem_insertTaskBy (le : Task → Task → Bool) (t x : Task)
    (l : List Task) : x ∈ insertTaskBy le t l ↔ x = t ∨ x ∈ l := by
  induction l with
  | nil => simp [insertTaskBy]
  | cons z zs ih =>
    by_cases h : le t z
    · simp [insertTaskBy, h]
    · simp [insertTaskBy, h, ih]
      tauto

theorem mem_sortTasksBy (le : Task → Task → Bool) (l : List Task) (x : Task) :
    x ∈ sortTasksBy le l ↔ x ∈ l := by
  induction l with
  | nil => simp [sortTasksBy]
  | cons z zs ih => simp [sortTasksBy, mem_insertTaskBy, ih]

theorem reMatchHere_eq_startsWithCI :
    ∀ ps ts : List Char, (∀ c ∈ ps, c ≠ '.') →
      reMatchHere ps ts = startsWithCI ps ts := by
  intro ps
  induction ps with
  | nil => intro ts _; rfl
  | cons p ps ih =>
    intro ts h
    cases ts with
    | nil => rfl
    | cons c cs =>
      have hp : (p == '.') = false := by simpa using h p (by simp)
      simp [reMatchHere, startsWithCI, reCharMatch, hp,
        ih cs (fun x hx => h x (by simp [hx]))]

theorem reTest_eq_containsCIList (ps ts : List Char)
    (h : ∀ c ∈ ps, c ≠ '.') : reTest ps ts = containsCIList ps ts := by
  induction ts with
  | nil => simp [reTest, containsCIList, reMatchHere_eq_startsWithCI ps [] h]
  | cons c cs ih =>
    simp [reTest, containsCIList,
      reMatchHere_eq_startsWithCI ps (c :: cs) h, ih]

/-! ## C9: the title filter -/

/-- C9 as stated is false: the `$regex` title filter applies the
parameter as a regular expression, so the parameter `"."` selects a task
titled `"abc"` even though `"."` does not occur in that title as a
substring. -/
theorem c9_regex_counterexample :
    getUserTasks "u1" ⟨none, none, none, none, some "."⟩ [regexTask]
      = [regexTask]
    ∧ containsCI "." "abc" = false := by
  exact ⟨rfl, by decide⟩

/-- C9 (amended): the title filter applies the parameter to the owner's
tasks as a case-insensitive regular expression matched anywhere in the
title, not as a literal substring; the query selects exactly the owner's
tasks whose title the regex accepts, and only for parameters free of
regex metacharacters does this coincide with case-insensitive substring
containment. -/
theorem c9_title_filter (pat uid : String) (q : TaskQuery)
    (store : List Task)
    (hq : q = ⟨none, none, none, none, some pat⟩) (hne : pat ≠ "") :
    (∀ t, t ∈ getUserTasks uid q store ↔
        t ∈ store ∧ t.userId = uid ∧ titleMatches pat t.title = true)
    ∧ ((∀ c ∈ pat.toList, c ≠ '.') →
        ∀ s, titleMatches pat s = containsCI pat s) := by
  subst hq
  constructor
  · intro t
    have hne' : (pat == "") = false := by simpa using hne
    simp only [getUserTasks]
    rw [mem_sortTasksBy, List.mem_filter]
    simp [matchesQuery, jsFalsy, jsInterp, hne', and_assoc]
  · intro hmeta s
    exact reTest_eq_containsCIList pat.toList s.toList hmeta

/-- Witness for `c9_title_filter` on the pattern `"BC"` (no
metacharacters) and a task titled `"abc"`. -/
theorem c9_title_filter_witness :
    (regexTask ∈ getUserTasks "u1" ⟨none, none, none, none, some "BC"⟩
        [regexTask]
      ↔ regexTask ∈ [regexTask] ∧ regexTask.userId = "u1"
        ∧ titleMatches "BC" regexTask.title = true)
    ∧ titleMatches "BC" "abc" = containsCI "BC" "abc" := by
  have h := c9_title_filter "BC" "u1" ⟨none, none, none, none, some "BC"⟩
    [regexTask] rfl (by decide)
  exact ⟨h.1 regexTask, h.2 (by decide) "abc"⟩

end Taskio
